import Mathlib

/-!
Shallow embedding of the Cloudflare Worker IPFS image host
(`src/worker.js`): the `fetch` router, the upload handler
(`handleUpload`) and the catalog listing handler (`handleListImages`),
together with the KV namespace (`IPFS_GALLERY`) they use.

External effects (the pin `fetch`, `request.formData()`, the KV `put`)
are modelled by passing their outcomes in as part of an environment;
a thrown JavaScript exception is an `Except.error` carrying the message.
-/

namespace IpfsWorker

/-- A browser `File` value as obtained from `formData.get('file')`:
its `name`, byte `size` and declared MIME `type`. -/
structure JsFile where
  name : String
  size : Nat
  type : String
deriving DecidableEq, Repr

/-- The metadata object built in `handleUpload` and stored in KV
(`{cid, fileName, timestamp, size, mimeType, ipfsUrl}`). -/
structure ImageRecord where
  cid : String
  fileName : String
  timestamp : Int
  size : Nat
  mimeType : String
  ipfsUrl : String
deriving DecidableEq, Repr

/-- A string held in the KV namespace, classified by whether `JSON.parse`
recovers an `ImageRecord` from it: `record r` stands for the string
`JSON.stringify` produces for `r`, and `corrupt s` stands for a stored
string that is not valid JSON. -/
inductive StoredValue where
  | record (r : ImageRecord)
  | corrupt (s : String)
deriving DecidableEq, Repr

/-- The KV namespace contents: an association of keys to stored strings. -/
abbrev Store := List (String × StoredValue)

/-- Model of `env.IPFS_GALLERY.get(key)`: the binding for the key, or
`null` when the key is absent. -/
def kvGet : Store → String → Option StoredValue
  | [], _ => none
  | p :: ps, k => if p.1 = k then some p.2 else kvGet ps k

/-- Model of `env.IPFS_GALLERY.put(key, value)`: overwrite the binding when
the key exists, otherwise add a new binding. -/
def kvPut : Store → String → StoredValue → Store
  | [], k, v => [(k, v)]
  | p :: ps, k, v => if p.1 = k then (k, v) :: ps else p :: kvPut ps k v

/-- Model of `env.IPFS_GALLERY.list()`: the keys currently stored. -/
def kvList (store : Store) : List String :=
  store.map (·.1)

/-- A JavaScript value pushed onto `images` by `JSON.parse` during the
listing loop: a parsed record object, or `null` — which is what
`JSON.parse(null)` evaluates to when `get` returned `null` for a key
that vanished between the `list` and the `get`. -/
inductive JsonVal where
  | null
  | record (r : ImageRecord)
deriving DecidableEq, Repr

/-- The `timestamp` property read by the sort comparator. It is only ever
read on record objects: the `null` case sits behind the TypeError guard in
`sortImages` and behind singleton arrays, where the comparator is never
invoked, so the value returned for `null` is irrelevant. -/
def JsonVal.timestamp : JsonVal → Int
  | .null => 0
  | .record r => r.timestamp

/-- The comparator `(a, b) => b.timestamp - a.timestamp` viewed as the
boolean order it induces on the array: `a` may precede `b` exactly when the
comparator is nonpositive, that is when `b.timestamp ≤ a.timestamp`. -/
def tsDescLe (a b : JsonVal) : Bool :=
  decide (b.timestamp ≤ a.timestamp)

/-- Model of `JSON.parse` applied to what `get` returned: `JSON.parse(null)` yields
the JSON value `null`; a stored record string parses back to the record; a
corrupt string throws a `SyntaxError`. -/
def jsonParse : Option StoredValue → Except String JsonVal
  | none => .ok .null
  | some (.record r) => .ok (.record r)
  | some (.corrupt s) => .error ("SyntaxError: Unexpected token in JSON: " ++ s)

/-- The fetch loop of `handleListImages`: for each listed key, `get` the
value and `JSON.parse` it, pushing the result onto `images`. The loop body
has no try/catch, so the first parse failure aborts the whole handler. -/
def fetchImages (store : Store) : List String → Except String (List JsonVal)
  | [] => .ok []
  | k :: ks =>
    match jsonParse (kvGet store k) with
    | .error e => .error e
    | .ok v =>
      match fetchImages store ks with
      | .error e => .error e
      | .ok rest => .ok (v :: rest)

/-- Model of `images.sort((a, b) => b.timestamp - a.timestamp)`: a stable sort by
`timestamp` descending. When the array holds a `null` among at least two
elements, the engine invokes the comparator on the `null` and reading
`null.timestamp` throws a TypeError; with fewer than two elements the
comparator is never invoked and the array is returned as is. -/
def sortImages (images : List JsonVal) : Except String (List JsonVal) :=
  if JsonVal.null ∈ images ∧ 2 ≤ images.length then
    .error "TypeError: Cannot read properties of null (reading timestamp)"
  else
    .ok (images.mergeSort tsDescLe)

/-- The body of an HTTP response built by the worker, kept structured
instead of serialized to a string. -/
inductive RespBody where
  | html
  | notFound
  | uploadOk (cid ipfsUrl fileName : String)
  | errorMsg (error : String)
  | images (imgs : List JsonVal)
deriving DecidableEq, Repr

/-- An HTTP response: status code and body. -/
structure HttpResponse where
  status : Nat
  body : RespBody
deriving DecidableEq, Repr

/-- Model of `handleListImages`: list the keys, fetch and parse every entry, sort by
timestamp descending, and respond 200 with the array. Any exception escapes
the handler, as it has no try/catch. The `keys` argument is what
`env.IPFS_GALLERY.list()` returned; the per-key `get` calls consult
`store`, so a key listed but deleted in between is simply absent there. -/
def handleListImages (keys : List String) (store : Store) : Except String HttpResponse :=
  match fetchImages store keys with
  | .error e => .error e
  | .ok images =>
    match sortImages images with
    | .error e => .error e
    | .ok sorted => .ok { status := 200, body := .images sorted }

/-- One entry of the `errors` array of the pinning API's JSON body; its
`message` field is optional, read through `errors?.[0]?.message`. -/
structure IpfsError where
  message : Option String
deriving DecidableEq, Repr

/-- The `result` object of the pinning API's JSON body. -/
structure IpfsResult where
  cid : String
deriving DecidableEq, Repr

/-- The parsed JSON body of the pinning API response (`ipfsData`). An
absent `errors` field behaves exactly like `[]` under the optional chain
`errors?.[0]?.message`, so it is modelled as a plain list; `result` is kept
optional because `ipfsData.result.cid` throws when it is absent. -/
structure IpfsData where
  errors : List IpfsError
  result : Option IpfsResult
deriving DecidableEq, Repr

/-- The HTTP response of the pin `fetch`: its `ok` flag together with the
outcome of `await ipfsResponse.json()`, which throws on a malformed body. -/
structure IpfsHttpResponse where
  ok : Bool
  jsonBody : Except String IpfsData
deriving Repr

/-- The environment of one upload request: the outcome the pin `fetch`
would have (a transport rejection is `.error`), the value `Date.now()`
returns, the outcome the KV `put` would have, and the store contents. -/
structure UploadEnv where
  ipfsResponse : Except String IpfsHttpResponse
  now : Int
  putResult : Except String Unit
  store : Store

/-- The external calls observable during an upload: the pin request and
the metadata write. -/
inductive ExtCall where
  | pinRequest
  | metadataPut (key : String)
deriving DecidableEq, Repr

/-- JavaScript `x || d` for an optional string: `undefined` and the empty
string are both falsy and select the default. -/
def jsOr (x : Option String) (d : String) : String :=
  match x with
  | some s => if s = "" then d else s
  | none => d

/-- The fixed gateway URL template applied to a cid:
`https://` ++ cid ++ `.ipfs.cf-ipfs.com`. -/
def ipfsGatewayUrl (cid : String) : String :=
  "https://" ++ cid ++ ".ipfs.cf-ipfs.com"

/-- The try block of `handleUpload`, returning the thrown message on
failure, together with the resulting store contents and the external calls
made. Reading `ipfsData.result.cid` on an absent `result` throws a
TypeError; a failed `put` throws and leaves the store unchanged. -/
def uploadTry (file : JsFile) (env : UploadEnv) :
    Except String HttpResponse × Store × List ExtCall :=
  match env.ipfsResponse with
  | .error e => (.error e, env.store, [.pinRequest])
  | .ok resp =>
    match resp.jsonBody with
    | .error e => (.error e, env.store, [.pinRequest])
    | .ok ipfsData =>
      if resp.ok = false then
        (.error ("IPFS 接口错误: " ++
            jsOr (ipfsData.errors.head?.bind IpfsError.message) "IPFS 上传失败"),
          env.store, [.pinRequest])
      else
        match ipfsData.result with
        | none =>
          (.error "TypeError: Cannot read properties of undefined (reading cid)",
            env.store, [.pinRequest])
        | some result =>
          let cid := result.cid
          let record : ImageRecord :=
            { cid := cid, fileName := file.name, timestamp := env.now,
              size := file.size, mimeType := file.type,
              ipfsUrl := ipfsGatewayUrl cid }
          match env.putResult with
          | .error e => (.error e, env.store, [.pinRequest, .metadataPut cid])
          | .ok _ =>
            (.ok { status := 200,
                   body := .uploadOk cid (ipfsGatewayUrl cid) file.name },
              kvPut env.store cid (.record record),
              [.pinRequest, .metadataPut cid])

/-- Model of `handleUpload`: evaluate `await request.formData()` first — outside the
try/catch, so its exception propagates out of the handler — then reject
with a 400 when no file field is present (`!file`; a `File` object is
always truthy, its size notwithstanding), and otherwise run the try block,
turning any message it throws into a 500 response. -/
def handleUpload (formDataFile : Except String (Option JsFile)) (env : UploadEnv) :
    Except String HttpResponse × Store × List ExtCall :=
  match formDataFile with
  | .error e => (.error e, env.store, [])
  | .ok none =>
    (.ok { status := 400, body := .errorMsg "未上传文件" }, env.store, [])
  | .ok (some file) =>
    match uploadTry file env with
    | (.ok resp, newStore, calls) => (.ok resp, newStore, calls)
    | (.error msg, newStore, calls) =>
      (.ok { status := 500, body := .errorMsg msg }, newStore, calls)

/-- An inbound request as the router sees it: method, path, and the outcome
`await request.formData()` would have if evaluated. -/
structure WorkerRequest where
  method : String
  path : String
  formDataFile : Except String (Option JsFile)

/-- The worker's `fetch` entry point: dispatch on method and path. `GET /`
serves the HTML page (status 200, the `Response` default), `POST /upload`
runs the upload handler, `GET /images` runs the listing — its `list()` and
`get()` calls consulting the same store — and anything else gets the 404
`Not Found` response. -/
def workerFetch (req : WorkerRequest) (env : UploadEnv) : Except String HttpResponse :=
  if req.method = "GET" ∧ req.path = "/" then
    .ok { status := 200, body := .html }
  else if req.method = "POST" ∧ req.path = "/upload" then
    (handleUpload req.formDataFile env).1
  else if req.method = "GET" ∧ req.path = "/images" then
    handleListImages (kvList env.store) env.store
  else
    .ok { status := 404, body := .notFound }

/-! Concrete example data used by witnesses and counterexamples. -/

/-- An example record with the given timestamp and name. -/
def egRecord (ts : Int) (n : String) : ImageRecord :=
  { cid := n, fileName := n, timestamp := ts, size := 1, mimeType := "image/png",
    ipfsUrl := ipfsGatewayUrl n }

/-- The example submission of spec §8: `cat.png`, 2048 bytes, `image/png`. -/
def catFile : JsFile := { name := "cat.png", size := 2048, type := "image/png" }

/-- A pin API body for a rejection carrying the remote message `boom`. -/
def pinRejectData : IpfsData := { errors := [{ message := some "boom" }], result := none }

/-- A pin API body for a success returning cid `bafy123`. -/
def pinOkData : IpfsData := { errors := [], result := some { cid := "bafy123" } }

/-- An environment whose pin request is rejected with message `boom`. -/
def pinFailEnv : UploadEnv :=
  { ipfsResponse := .ok { ok := false, jsonBody := .ok pinRejectData },
    now := 0, putResult := .ok (), store := [] }

/-- An environment whose pin succeeds with cid `bafy123` and whose KV
write succeeds, over an initially empty store. -/
def pinOkEnv : UploadEnv :=
  { ipfsResponse := .ok { ok := true, jsonBody := .ok pinOkData },
    now := 7, putResult := .ok (), store := [] }

/-- An environment used only for listing requests, wrapping a store. -/
def listEnv (store : Store) : UploadEnv :=
  { ipfsResponse := .error "unused", now := 0, putResult := .ok (), store := store }

/-! Helper lemmas about the KV model, the fetch loop and the sort. -/

/-- Getting the key just put returns the value just put. -/
theorem kvGet_kvPut_self (store : Store) (k : String) (v : StoredValue) :
    kvGet (kvPut store k v) k = some v := by
  induction store with
  | nil => simp [kvPut, kvGet]
  | cons p ps ih =>
    by_cases h : p.1 = k
    · simp [kvPut, h, kvGet]
    · simp [kvPut, h, kvGet, ih]

/-- Every binding after a put is the new binding or an old one. -/
theorem mem_kvPut (store : Store) (k : String) (v : StoredValue) (q : String × StoredValue)
    (hq : q ∈ kvPut store k v) : q = (k, v) ∨ q ∈ store := by
  induction store with
  | nil => simpa [kvPut] using hq
  | cons p ps ih =>
    by_cases h : p.1 = k
    · simp [kvPut, h] at hq
      rcases hq with h1 | h2
      · exact Or.inl h1
      · exact Or.inr (List.mem_cons_of_mem _ h2)
    · simp [kvPut, h] at hq
      rcases hq with h1 | h2
      · exact Or.inr (h1 ▸ List.mem_cons_self _ _)
      · rcases ih h2 with h3 | h4
        · exact Or.inl h3
        · exact Or.inr (List.mem_cons_of_mem _ h4)

/-- The key just put is among the listed keys. -/
theorem mem_kvList_kvPut (store : Store) (k : String) (v : StoredValue) :
    k ∈ kvList (kvPut store k v) := by
  induction store with
  | nil => simp [kvPut, kvList]
  | cons p ps ih =>
    by_cases h : p.1 = k
    · simp [kvPut, h, kvList]
    · simp only [kvPut, h, if_false, kvList, List.map_cons]
      exact List.mem_cons_of_mem _ ih

/-- A listed key resolves to some stored value. -/
theorem kvGet_of_mem_kvList (store : Store) (k : String) (hk : k ∈ kvList store) :
    ∃ v, kvGet store k = some v := by
  induction store with
  | nil => simp [kvList] at hk
  | cons p ps ih =>
    by_cases h : p.1 = k
    · exact ⟨p.2, by simp [kvGet, h]⟩
    · simp only [kvList, List.map_cons, List.mem_cons] at hk
      rcases hk with h1 | h2
      · exact absurd h1.symm h
      · obtain ⟨v, hv⟩ := ih h2
        exact ⟨v, by simp [kvGet, h, hv]⟩

/-- A successful get exhibits a binding of the store. -/
theorem kvGet_mem (store : Store) (k : String) (v : StoredValue)
    (h : kvGet store k = some v) : (k, v) ∈ store := by
  induction store with
  | nil => simp [kvGet] at h
  | cons p ps ih =>
    by_cases hp : p.1 = k
    · simp only [kvGet, hp, if_true, Option.some.injEq] at h
      have : p = (k, v) := by
        cases p
        simp_all
      exact this ▸ List.mem_cons_self _ _
    · simp only [kvGet, hp, if_false] at h
      exact List.mem_cons_of_mem _ (ih h)

/-- The comparator order is transitive. -/
theorem tsDescLe_trans : ∀ a b c : JsonVal, tsDescLe a b → tsDescLe b c → tsDescLe a c := by
  intro a b c hab hbc
  simp only [tsDescLe, decide_eq_true_eq] at hab hbc ⊢
  omega

/-- The comparator order is total. -/
theorem tsDescLe_total : ∀ a b : JsonVal, tsDescLe a b || tsDescLe b a := by
  intro a b
  simp only [tsDescLe, Bool.or_eq_true, decide_eq_true_eq]
  omega

/-- When every listed key holds a record, the fetch loop succeeds and
produces no `null` element. -/
theorem fetchImages_ok_of_records (store : Store) :
    ∀ keys : List String,
      (∀ k ∈ keys, ∃ r, kvGet store k = some (.record r)) →
      ∃ imgs, fetchImages store keys = .ok imgs ∧ JsonVal.null ∉ imgs := by
  intro keys
  induction keys with
  | nil => exact fun _ => ⟨[], rfl, by simp⟩
  | cons a as ih =>
    intro h
    obtain ⟨r, hr⟩ := h a (List.mem_cons_self _ _)
    obtain ⟨imgs, hi, hn⟩ := ih fun k hk => h k (List.mem_cons_of_mem _ hk)
    refine ⟨.record r :: imgs, ?_, by simp [hn]⟩
    simp [fetchImages, hr, jsonParse, hi]

/-- A record fetched from a listed key appears in the fetched array. -/
theorem mem_fetchImages (store : Store) :
    ∀ (keys : List String) (imgs : List JsonVal),
      fetchImages store keys = .ok imgs →
      ∀ (k : String) (r : ImageRecord), k ∈ keys →
        kvGet store k = some (.record r) → JsonVal.record r ∈ imgs := by
  intro keys
  induction keys with
  | nil => intro imgs _ k r hk; simp at hk
  | cons a as ih =>
    intro imgs h k r hk hg
    rcases hpa : jsonParse (kvGet store a) with e | v
    · simp [fetchImages, hpa] at h
    · rcases hfa : fetchImages store as with e | rest
      · simp [fetchImages, hpa, hfa] at h
      · simp only [fetchImages, hpa, hfa, Except.ok.injEq] at h
        subst h
        rcases List.mem_cons.mp hk with h1 | h2
        · subst h1
          rw [hg] at hpa
          simp only [jsonParse, Except.ok.injEq] at hpa
          exact hpa ▸ List.mem_cons_self _ _
        · exact List.mem_cons_of_mem _ (ih rest hfa k r h2 hg)

/-- A listed key holding a corrupt value makes the fetch loop throw. -/
theorem fetchImages_error_of_corrupt (store : Store) :
    ∀ (keys : List String) (k s : String), k ∈ keys →
      kvGet store k = some (.corrupt s) →
      ∃ e, fetchImages store keys = .error e := by
  intro keys
  induction keys with
  | nil => intro k s hk; simp at hk
  | cons a as ih =>
    intro k s hk hg
    rcases List.mem_cons.mp hk with h1 | h2
    · subst h1
      exact ⟨"SyntaxError: Unexpected token in JSON: " ++ s,
        by simp [fetchImages, hg, jsonParse]⟩
    · obtain ⟨e, he⟩ := ih k s h2 hg
      rcases hpa : jsonParse (kvGet store a) with e2 | v
      · exact ⟨e2, by simp [fetchImages, hpa]⟩
      · exact ⟨e, by simp [fetchImages, hpa, he]⟩

/-- Sorting an array without `null` never throws and merge sorts it. -/
theorem sortImages_ok_of_no_null (imgs : List JsonVal) (h : JsonVal.null ∉ imgs) :
    sortImages imgs = .ok (imgs.mergeSort tsDescLe) := by
  simp [sortImages, h]

/-! Claim theorems. -/

/-- Concrete store with one valid record and one corrupt entry. -/
def C1store : Store :=
  [("a", .record (egRecord 5 "a")), ("b", .corrupt "oops")]

/-- Claim C1 is false on the code: with one valid record and one entry
whose value fails to deserialize, the corrupt entry is not skipped — the
parse exception escapes `handleListImages`, and the whole `GET /images`
request fails instead of returning the remaining valid record. -/
theorem C1_counterexample :
    handleListImages (kvList C1store) C1store =
        .error ("SyntaxError: Unexpected token in JSON: " ++ "oops") ∧
      workerFetch { method := "GET", path := "/images", formDataFile := .ok none }
          (listEnv C1store) =
        .error ("SyntaxError: Unexpected token in JSON: " ++ "oops") :=
  ⟨rfl, rfl⟩

/-- Claim C1 (amended): a stored entry that fails to deserialize during
listing is not skipped; it aborts the whole listing, and the exception
surfaces as a request-level failure. -/
theorem C1_corrupt_aborts_listing (keys : List String) (store : Store) (k s : String)
    (hk : k ∈ keys) (hv : kvGet store k = some (.corrupt s)) :
    ∃ e, handleListImages keys store = .error e := by
  obtain ⟨e, he⟩ := fetchImages_error_of_corrupt store keys k s hk hv
  exact ⟨e, by simp [handleListImages, he]⟩

/-- Witness for the amended C1 at the concrete two-entry store. -/
theorem C1_corrupt_aborts_listing_witness :
    ∃ e, handleListImages (kvList C1store) C1store = .error e :=
  C1_corrupt_aborts_listing (kvList C1store) C1store "b" "oops" (by decide) rfl

/-- Claim C6: a `POST /upload` request whose parsed form data has no file
field gets the 400 input-error response, the store is untouched, and no
external call — neither the pin request nor a KV write — is attempted. -/
theorem C6_no_file_no_side_effects (env : UploadEnv) :
    workerFetch { method := "POST", path := "/upload", formDataFile := .ok none } env =
        .ok { status := 400, body := .errorMsg "未上传文件" } ∧
      handleUpload (.ok none) env =
        (.ok { status := 400, body := .errorMsg "未上传文件" }, env.store, []) := by
  constructor
  · simp [workerFetch, handleUpload]
  · rfl

/-- Claim C9 is false on the code: `GET /` is neither `POST /upload` nor
`GET /images`, yet it is answered with the HTML page at status 200, not
with a 404. -/
theorem C9_counterexample :
    workerFetch { method := "GET", path := "/", formDataFile := .ok none } (listEnv []) =
        .ok { status := 200, body := .html } ∧
      (200 : Nat) ≠ 404 :=
  ⟨rfl, by decide⟩

/-- Claim C9 (amended): every request whose method and path match none of
`GET /` (the HTML page route), `POST /upload` and `GET /images` is
answered with the 404 `Not Found` response. -/
theorem C9_unrouted_is_404 (req : WorkerRequest) (env : UploadEnv)
    (h1 : ¬(req.method = "GET" ∧ req.path = "/"))
    (h2 : ¬(req.method = "POST" ∧ req.path = "/upload"))
    (h3 : ¬(req.method = "GET" ∧ req.path = "/images")) :
    workerFetch req env = .ok { status := 404, body := .notFound } := by
  simp only [workerFetch, if_neg h1, if_neg h2, if_neg h3]

/-- Witness for the amended C9 at `DELETE /x`. -/
theorem C9_unrouted_is_404_witness :
    workerFetch { method := "DELETE", path := "/x", formDataFile := .ok none } (listEnv []) =
      .ok { status := 404, body := .notFound } :=
  C9_unrouted_is_404 _ _ (by decide) (by decide) (by decide)

/-- Claim C10: when `request.formData()` throws, the exception propagates
out of `handleUpload` uncaught — the caller receives no JSON response at
all, neither the 400 input error nor the 500 — because the call sits
before and outside the try/catch block. -/
theorem C10_formdata_exception_propagates (e : String) (env : UploadEnv) :
    handleUpload (.error e) env = (.error e, env.store, []) ∧
      workerFetch { method := "POST", path := "/upload", formDataFile := .error e } env =
        .error e ∧
      ∀ resp, (handleUpload (.error e) env).1 ≠ .ok resp := by
  refine ⟨rfl, ?_, ?_⟩
  · simp [workerFetch, handleUpload]
  · intro resp h
    simp [handleUpload] at h

/-- Store holding records with timestamps 100, 300, 200, in fetch order. -/
def C4store : Store :=
  [("a", .record (egRecord 100 "a")), ("b", .record (egRecord 300 "b")),
   ("c", .record (egRecord 200 "c"))]

/-- Claim C4: whenever a listing returns an array, that array is sorted by
`timestamp` descending, and elements with equal timestamps keep the
relative order in which the fetch loop produced them — stability, stated
as preservation of every equal-timestamp fiber of the fetched array. -/
theorem C4_listing_sorted_stable (keys : List String) (store : Store)
    (resp : HttpResponse) (l : List JsonVal)
    (h1 : handleListImages keys store = .ok resp) (h2 : resp.body = .images l) :
    l.Pairwise (fun a b => b.timestamp ≤ a.timestamp) ∧
      ∀ imgs, fetchImages store keys = .ok imgs →
        ∀ t : Int, l.filter (fun v => v.timestamp == t) =
          imgs.filter (fun v => v.timestamp == t) := by
  rcases hf : fetchImages store keys with e | imgs0
  · simp [handleListImages, hf] at h1
  · rcases hs : sortImages imgs0 with e | sorted
    · simp [handleListImages, hf, hs] at h1
    · simp only [handleListImages, hf, hs, Except.ok.injEq] at h1
      subst h1
      simp only [RespBody.images.injEq] at h2
      have hsort : sorted = imgs0.mergeSort tsDescLe := by
        rw [sortImages] at hs
        split at hs
        · exact absurd hs (by simp)
        · simpa using hs.symm
      subst h2
      subst hsort
      constructor
      · have hp := List.sorted_mergeSort tsDescLe_trans tsDescLe_total imgs0
        exact hp.imp fun h => by simpa [tsDescLe] using h
      · intro imgs hi t
        injection hi with hii
        subst hii
        have hpair : (imgs0.filter (fun v => v.timestamp == t)).Pairwise
            fun a b => tsDescLe a b = true := by
          apply List.pairwise_of_forall_mem_list
          intro a ha b hb
          have ha' := (List.mem_filter.mp ha).2
          have hb' := (List.mem_filter.mp hb).2
          simp only [beq_iff_eq] at ha' hb'
          simp only [tsDescLe, decide_eq_true_eq, ha', hb', le_refl]
        have hsub : List.Sublist (imgs0.filter (fun v => v.timestamp == t))
            (List.mergeSort imgs0 tsDescLe) :=
          List.sublist_mergeSort tsDescLe_trans tsDescLe_total hpair
            (List.filter_sublist _)
        have hsub2 := hsub.filter (fun v => v.timestamp == t)
        have hff : (imgs0.filter (fun v => v.timestamp == t)).filter
            (fun v => v.timestamp == t) = imgs0.filter (fun v => v.timestamp == t) :=
          List.filter_eq_self.mpr fun a ha => (List.mem_filter.mp ha).2
        rw [hff] at hsub2
        have hperm : List.Perm
            ((List.mergeSort imgs0 tsDescLe).filter (fun v => v.timestamp == t))
            (imgs0.filter (fun v => v.timestamp == t)) :=
          (List.mergeSort_perm imgs0 tsDescLe).filter _
        exact (hsub2.eq_of_length hperm.length_eq.symm).symm

/-- Witness for C4: the spec example — timestamps 100, 300, 200 are listed
back as 300, 200, 100 — with sortedness obtained from the theorem. -/
theorem C4_listing_sorted_stable_witness :
    handleListImages (kvList C4store) C4store =
        .ok { status := 200,
              body := .images [.record (egRecord 300 "b"), .record (egRecord 200 "c"),
                .record (egRecord 100 "a")] } ∧
      ([JsonVal.record (egRecord 300 "b"), .record (egRecord 200 "c"),
          .record (egRecord 100 "a")] : List JsonVal).Pairwise
        (fun a b => b.timestamp ≤ a.timestamp) := by
  have hconc : handleListImages (kvList C4store) C4store =
      .ok { status := 200,
            body := .images [.record (egRecord 300 "b"), .record (egRecord 200 "c"),
              .record (egRecord 100 "a")] } := by
    simp [handleListImages, C4store, kvList, fetchImages, kvGet, jsonParse, sortImages,
      List.mergeSort, egRecord, tsDescLe, JsonVal.timestamp, List.merge]
  exact ⟨hconc, (C4_listing_sorted_stable _ _ _ _ hconc rfl).1⟩

/-- An environment whose pin succeeds with cid `bafyX` but whose KV write
then fails, throwing a message identical to a pin-rejection message. -/
def putFailEnv : UploadEnv :=
  { ipfsResponse := .ok { ok := true,
                          jsonBody := .ok { errors := [],
                                            result := some { cid := "bafyX" } } },
    now := 0, putResult := .error ("IPFS 接口错误: " ++ "boom"), store := [] }

/-- Claim C2 is false on the code: a pin rejection and a KV write failure
after a successful pin can produce byte-identical responses — both land in
the same catch-all 500 `error` path — so the caller cannot tell the
pinned-but-not-indexed state apart from an ordinary pin failure. -/
theorem C2_counterexample :
    (handleUpload (.ok (some catFile)) pinFailEnv).1 =
        .ok { status := 500, body := .errorMsg ("IPFS 接口错误: " ++ "boom") } ∧
      (handleUpload (.ok (some catFile)) putFailEnv).1 =
        .ok { status := 500, body := .errorMsg ("IPFS 接口错误: " ++ "boom") } ∧
      (handleUpload (.ok (some catFile)) pinFailEnv).2.2 = [.pinRequest] ∧
      (handleUpload (.ok (some catFile)) putFailEnv).2.2 =
        [.pinRequest, .metadataPut "bafyX"] :=
  ⟨rfl, rfl, rfl, rfl⟩

/-- Claim C2 (amended): a MetadataStore write failure after a successful
pin is reported through the same generic catch path as a pin failure —
HTTP 500 with the thrown message as `error`, no distinguishing marker —
and the store is left unchanged. -/
theorem C2_put_failure_same_generic_500 (file : JsFile) (env : UploadEnv)
    (resp : IpfsHttpResponse) (d : IpfsData) (res : IpfsResult) (m : String)
    (h1 : env.ipfsResponse = .ok resp) (h2 : resp.jsonBody = .ok d)
    (h3 : resp.ok = true) (h4 : d.result = some res)
    (h5 : env.putResult = .error m) :
    handleUpload (.ok (some file)) env =
      (.ok { status := 500, body := .errorMsg m }, env.store,
        [.pinRequest, .metadataPut res.cid]) := by
  simp [handleUpload, uploadTry, h1, h2, h3, h4, h5]

/-- Witness for the amended C2 at the concrete put-failure environment. -/
theorem C2_put_failure_same_generic_500_witness :
    handleUpload (.ok (some catFile)) putFailEnv =
      (.ok { status := 500, body := .errorMsg ("IPFS 接口错误: " ++ "boom") }, [],
        [.pinRequest, .metadataPut "bafyX"]) :=
  C2_put_failure_same_generic_500 catFile putFailEnv _ _ _ _ rfl rfl rfl rfl rfl

/-- Claim C5: when the pin service rejects the upload with a remote
message, no KV write happens — the store is returned unchanged and the
only external call is the pin request — and the caller gets a 500 response
whose error message contains the remote-supplied message. -/
theorem C5_pin_rejection (file : JsFile) (env : UploadEnv)
    (resp : IpfsHttpResponse) (d : IpfsData) (err : IpfsError) (m : String)
    (h1 : env.ipfsResponse = .ok resp) (h2 : resp.jsonBody = .ok d)
    (h3 : resp.ok = false) (h4 : d.errors.head? = some err)
    (h5 : err.message = some m) :
    handleUpload (.ok (some file)) env =
      (.ok { status := 500,
             body := .errorMsg ("IPFS 接口错误: " ++ jsOr (some m) "IPFS 上传失败") },
        env.store, [.pinRequest]) ∧
      ∃ pre post,
        "IPFS 接口错误: " ++ jsOr (some m) "IPFS 上传失败" = pre ++ m ++ post := by
  constructor
  · simp [handleUpload, uploadTry, h1, h2, h3, h4, h5]
  · by_cases hm : m = ""
    · subst hm
      exact ⟨"IPFS 接口错误: IPFS 上传失败", "", rfl⟩
    · refine ⟨"IPFS 接口错误: ", "", ?_⟩
      simp [jsOr, hm]

/-- Witness for C5 at the concrete rejection environment. -/
theorem C5_pin_rejection_witness :
    (handleUpload (.ok (some catFile)) pinFailEnv =
      (.ok { status := 500,
             body := .errorMsg ("IPFS 接口错误: " ++ jsOr (some "boom") "IPFS 上传失败") },
        [], [.pinRequest]) ∧
      ∃ pre post,
        "IPFS 接口错误: " ++ jsOr (some "boom") "IPFS 上传失败" = pre ++ "boom" ++ post) :=
  C5_pin_rejection catFile pinFailEnv _ _ _ "boom" rfl rfl rfl rfl rfl

/-- The metadata record `handleUpload` assembles for a file pinned as
`cid` at time `now` (the object literal passed to `put`). -/
def mkRecord (file : JsFile) (now : Int) (cid : String) : ImageRecord :=
  { cid := cid, fileName := file.name, timestamp := now, size := file.size,
    mimeType := file.type, ipfsUrl := ipfsGatewayUrl cid }

/-- Shape of the try block: its first external call is always the pin
request, and any response it returns itself carries status 200. -/
theorem uploadTry_shape (file : JsFile) (env : UploadEnv) :
    (∃ t, (uploadTry file env).2.2 = ExtCall.pinRequest :: t) ∧
      ∀ r, (uploadTry file env).1 = .ok r → r.status = 200 := by
  rcases h1 : env.ipfsResponse with e | resp
  · exact ⟨⟨[], by simp [uploadTry, h1]⟩, fun r hr => by simp [uploadTry, h1] at hr⟩
  · rcases h2 : resp.jsonBody with e2 | d
    · exact ⟨⟨[], by simp [uploadTry, h1, h2]⟩,
        fun r hr => by simp [uploadTry, h1, h2] at hr⟩
    · by_cases h3 : resp.ok = false
      · exact ⟨⟨[], by simp [uploadTry, h1, h2, h3]⟩,
          fun r hr => by simp [uploadTry, h1, h2, h3] at hr⟩
      · have h3t : resp.ok = true := by
          revert h3
          cases resp.ok <;> simp
        rcases h4 : d.result with _ | res
        · exact ⟨⟨[], by simp [uploadTry, h1, h2, h3t, h4]⟩,
            fun r hr => by simp [uploadTry, h1, h2, h3t, h4] at hr⟩
        · rcases h5 : env.putResult with e5 | u
          · exact ⟨⟨[.metadataPut res.cid], by simp [uploadTry, h1, h2, h3t, h4, h5]⟩,
              fun r hr => by simp [uploadTry, h1, h2, h3t, h4, h5] at hr⟩
          · refine ⟨⟨[.metadataPut res.cid], by simp [uploadTry, h1, h2, h3t, h4, h5]⟩,
              fun r hr => ?_⟩
            have hval : uploadTry file env =
                (.ok { status := 200,
                       body := .uploadOk res.cid (ipfsGatewayUrl res.cid) file.name },
                  kvPut env.store res.cid (.record (mkRecord file env.now res.cid)),
                  [.pinRequest, .metadataPut res.cid]) := by
              simp [uploadTry, h1, h2, h3t, h4, h5, mkRecord]
            rw [hval] at hr
            injection hr with h
            rw [← h]

/-- A zero-byte file: present, hence truthy, hence not rejected. -/
def emptyFile : JsFile := { name := "empty.png", size := 0, type := "image/png" }

/-- Claim C7 is false on the code: a present zero-byte file is not rejected
as an input error — the pin request is made and, when the pin succeeds, the
upload completes with a 200 success response. -/
theorem C7_counterexample :
    (handleUpload (.ok (some emptyFile)) pinOkEnv).1 =
        .ok { status := 200,
              body := .uploadOk "bafy123" (ipfsGatewayUrl "bafy123") "empty.png" } ∧
      (handleUpload (.ok (some emptyFile)) pinOkEnv).2.2 =
        [.pinRequest, .metadataPut "bafy123"] :=
  ⟨rfl, rfl⟩

/-- Claim C7 (amended): only an absent file field is rejected before
pinning; a present zero-byte payload always reaches the PinningClient, and
the response is never the 400 input error. -/
theorem C7_empty_payload_not_rejected (file : JsFile) (env : UploadEnv)
    (hsize : file.size = 0) :
    ExtCall.pinRequest ∈ (handleUpload (.ok (some file)) env).2.2 ∧
      ∀ resp, (handleUpload (.ok (some file)) env).1 = .ok resp →
        resp.status ≠ 400 := by
  obtain ⟨⟨t, ht⟩, hok⟩ := uploadTry_shape file env
  rcases hu : uploadTry file env with ⟨er, st, cs⟩
  rw [hu] at ht
  simp only at ht
  cases er with
  | ok r =>
    have h200 := hok r (by rw [hu])
    constructor
    · simp [handleUpload, hu, ht]
    · intro resp hresp
      simp only [handleUpload, hu] at hresp
      injection hresp with h
      rw [← h, h200]
      decide
  | error m =>
    constructor
    · simp [handleUpload, hu, ht]
    · intro resp hresp
      simp only [handleUpload, hu] at hresp
      injection hresp with h
      rw [← h]
      simp

/-- Witness for the amended C7 at the zero-byte file. -/
theorem C7_empty_payload_not_rejected_witness :
    emptyFile.size = 0 ∧
      (ExtCall.pinRequest ∈ (handleUpload (.ok (some emptyFile)) pinOkEnv).2.2 ∧
        ∀ resp, (handleUpload (.ok (some emptyFile)) pinOkEnv).1 = .ok resp →
          resp.status ≠ 400) :=
  ⟨rfl, C7_empty_payload_not_rejected emptyFile pinOkEnv rfl⟩

/-- Claim C8: on success, the resource URL in the response and in the
persisted record both equal the fixed template applied to the returned cid
alone, so any caller knowing only the cid can recompute it with no other
state. -/
theorem C8_resource_url (file : JsFile) (env : UploadEnv)
    (resp : IpfsHttpResponse) (d : IpfsData) (res : IpfsResult)
    (h1 : env.ipfsResponse = .ok resp) (h2 : resp.jsonBody = .ok d)
    (h3 : resp.ok = true) (h4 : d.result = some res) (h5 : env.putResult = .ok ()) :
    (handleUpload (.ok (some file)) env).1 =
        .ok { status := 200,
              body := .uploadOk res.cid (ipfsGatewayUrl res.cid) file.name } ∧
      kvGet (handleUpload (.ok (some file)) env).2.1 res.cid =
        some (.record (mkRecord file env.now res.cid)) ∧
      ipfsGatewayUrl res.cid = "https://" ++ res.cid ++ ".ipfs.cf-ipfs.com" := by
  refine ⟨?_, ?_, rfl⟩
  · simp [handleUpload, uploadTry, h1, h2, h3, h4, h5]
  · have hst : (handleUpload (.ok (some file)) env).2.1 =
        kvPut env.store res.cid (.record (mkRecord file env.now res.cid)) := by
      simp [handleUpload, uploadTry, h1, h2, h3, h4, h5, mkRecord]
    rw [hst, kvGet_kvPut_self]

/-- Witness for C8 at the concrete successful upload. -/
theorem C8_resource_url_witness :
    (handleUpload (.ok (some catFile)) pinOkEnv).1 =
        .ok { status := 200,
              body := .uploadOk "bafy123" (ipfsGatewayUrl "bafy123") "cat.png" } ∧
      kvGet (handleUpload (.ok (some catFile)) pinOkEnv).2.1 "bafy123" =
        some (.record (mkRecord catFile 7 "bafy123")) ∧
      ipfsGatewayUrl "bafy123" = "https://" ++ "bafy123" ++ ".ipfs.cf-ipfs.com" :=
  C8_resource_url catFile pinOkEnv _ _ _ rfl rfl rfl rfl rfl

/-- An environment whose pin service answers success with the empty cid. -/
def C3emptyCidEnv : UploadEnv :=
  { ipfsResponse := .ok { ok := true,
                          jsonBody := .ok { errors := [],
                                            result := some { cid := "" } } },
    now := 7, putResult := .ok (), store := [] }

/-- An environment with a successful pin over a store already holding one
corrupt entry. -/
def C3corruptStoreEnv : UploadEnv :=
  { ipfsResponse := .ok { ok := true,
                          jsonBody := .ok { errors := [],
                                            result := some { cid := "bafy123" } } },
    now := 7, putResult := .ok (), store := [("z", .corrupt "junk")] }

/-- Claim C3 is false on the code, at two concrete inputs: a pin service
answering with cid `""` yields a successful upload whose returned
contentId is empty, and a successful upload into a store already holding
one corrupt entry is followed by a listing that fails entirely instead of
containing the new record. -/
theorem C3_counterexample :
    (handleUpload (.ok (some catFile)) C3emptyCidEnv).1 =
        .ok { status := 200, body := .uploadOk "" (ipfsGatewayUrl "") "cat.png" } ∧
      (handleUpload (.ok (some catFile)) C3corruptStoreEnv).1 =
        .ok { status := 200,
              body := .uploadOk "bafy123" (ipfsGatewayUrl "bafy123") "cat.png" } ∧
      handleListImages
          (kvList (handleUpload (.ok (some catFile)) C3corruptStoreEnv).2.1)
          (handleUpload (.ok (some catFile)) C3corruptStoreEnv).2.1 =
        .error ("SyntaxError: Unexpected token in JSON: " ++ "junk") :=
  ⟨rfl, rfl, rfl⟩

/-- Claim C3 (amended): a successful upload returns the pin service's cid
as contentId and persists the record under it; provided every stored value
deserializes, the listing immediately afterwards succeeds and contains an
entry whose contentId, fileName, sizeBytes and mimeType equal those of the
submission. -/
theorem C3_upload_roundtrip (file : JsFile) (env : UploadEnv)
    (resp : IpfsHttpResponse) (d : IpfsData) (res : IpfsResult)
    (h1 : env.ipfsResponse = .ok resp) (h2 : resp.jsonBody = .ok d)
    (h3 : resp.ok = true) (h4 : d.result = some res) (h5 : env.putResult = .ok ())
    (hclean : ∀ p ∈ env.store, ∃ r, p.2 = StoredValue.record r) :
    (handleUpload (.ok (some file)) env).1 =
        .ok { status := 200,
              body := .uploadOk res.cid (ipfsGatewayUrl res.cid) file.name } ∧
      ∃ imgs,
        handleListImages (kvList (handleUpload (.ok (some file)) env).2.1)
            (handleUpload (.ok (some file)) env).2.1 =
          .ok { status := 200, body := .images imgs } ∧
        ∃ r, JsonVal.record r ∈ imgs ∧ r.cid = res.cid ∧ r.fileName = file.name ∧
          r.size = file.size ∧ r.mimeType = file.type := by
  have hst : (handleUpload (.ok (some file)) env).2.1 =
      kvPut env.store res.cid (.record (mkRecord file env.now res.cid)) := by
    simp [handleUpload, uploadTry, h1, h2, h3, h4, h5, mkRecord]
  refine ⟨by simp [handleUpload, uploadTry, h1, h2, h3, h4, h5], ?_⟩
  rw [hst]
  set store2 := kvPut env.store res.cid (.record (mkRecord file env.now res.cid))
    with hs2
  have hclean2 : ∀ p ∈ store2, ∃ r, p.2 = StoredValue.record r := by
    intro p hp
    rcases mem_kvPut env.store res.cid (.record (mkRecord file env.now res.cid)) p
        (hs2 ▸ hp) with h | h
    · exact ⟨mkRecord file env.now res.cid, by rw [h]⟩
    · exact hclean p h
  have hkeys : ∀ k ∈ kvList store2, ∃ r, kvGet store2 k = some (.record r) := by
    intro k hk
    obtain ⟨v, hv⟩ := kvGet_of_mem_kvList store2 k hk
    obtain ⟨r, hr⟩ := hclean2 (k, v) (kvGet_mem store2 k v hv)
    have hr2 : v = StoredValue.record r := hr
    exact ⟨r, by rw [hv, hr2]⟩
  obtain ⟨imgs0, hfetch, hnull⟩ := fetchImages_ok_of_records store2 (kvList store2) hkeys
  refine ⟨imgs0.mergeSort tsDescLe, ?_, ?_⟩
  · simp [handleListImages, hfetch, sortImages_ok_of_no_null imgs0 hnull]
  · refine ⟨mkRecord file env.now res.cid, ?_, rfl, rfl, rfl, rfl⟩
    have hget : kvGet store2 res.cid = some (.record (mkRecord file env.now res.cid)) :=
      kvGet_kvPut_self env.store res.cid _
    have hmem0 : JsonVal.record (mkRecord file env.now res.cid) ∈ imgs0 :=
      mem_fetchImages store2 (kvList store2) imgs0 hfetch res.cid _
        (mem_kvList_kvPut env.store res.cid _) hget
    exact List.mem_mergeSort.mpr hmem0

/-- A successful-pin environment over a clean one-record store. -/
def C3cleanEnv : UploadEnv :=
  { ipfsResponse := .ok { ok := true,
                          jsonBody := .ok { errors := [],
                                            result := some { cid := "bafy123" } } },
    now := 7, putResult := .ok (), store := [("old", .record (egRecord 1 "old"))] }

/-- Witness for the amended C3 at a concrete clean store. -/
theorem C3_upload_roundtrip_witness :
    (handleUpload (.ok (some catFile)) C3cleanEnv).1 =
        .ok { status := 200,
              body := .uploadOk "bafy123" (ipfsGatewayUrl "bafy123") "cat.png" } ∧
      ∃ imgs,
        handleListImages (kvList (handleUpload (.ok (some catFile)) C3cleanEnv).2.1)
            (handleUpload (.ok (some catFile)) C3cleanEnv).2.1 =
          .ok { status := 200, body := .images imgs } ∧
        ∃ r, JsonVal.record r ∈ imgs ∧ r.cid = "bafy123" ∧ r.fileName = "cat.png" ∧
          r.size = 2048 ∧ r.mimeType = "image/png" :=
  C3_upload_roundtrip catFile C3cleanEnv _ _ _ rfl rfl rfl rfl rfl
    (by
      intro p hp
      simp only [C3cleanEnv, List.mem_singleton] at hp
      exact ⟨egRecord 1 "old", by rw [hp]⟩)

end IpfsWorker
